import Mathlib

/-!
Verification of the ai-brain enhanced knowledge-graph memory manager
(`src/enhanced-memory.js`, error types from `src/types.js`).

Shallow embedding conventions:
* JS numbers are modelled as real numbers (`ℝ`); `Math.pow` is `Real.rpow`;
  `Math.min`/`Math.max` are `min`/`max`.
* Timestamps (`Date` values and their ISO-string round trips) are modelled as
  real numbers counting milliseconds since the epoch.
* The persisted store is modelled as the list of its logical records (one JSON
  line per record).  A line that fails `JSON.parse`, or whose `type` tag is not
  one of `metadata`/`entity`/`relation`, is the `malformed` record (the code
  skips both).  The `JSON.stringify`/`JSON.parse` round trip itself is the JSON
  library's property and is not re-verified here.
* The metadata envelope is modelled with the fields the manager reads or
  writes (`version`, `createdAt`, `lastUpdated`, `totalInteractions`); the
  `userProfile`/`language` payload inside the envelope is carried by no claim
  and `updateUserProfileFromEntities` (which only writes into that payload and
  never touches entities or relations) is therefore not modelled.
* Each operation is a load → mutate → decay-on-save → persist round trip; the
  process-wide mutable state is the decay engine's `lastDecayCheck` timestamp,
  threaded explicitly.
-/

namespace AIBrain

noncomputable section

/-- JS `String.prototype.includes`: substring containment. -/
def containsStr (s sub : String) : Bool :=
  decide (sub.toList <:+: s.toList)

/-- Per-entity emotional metadata (`emotionalMetadata` objects). `decayRate`
and `lastAccessed` are absent (`undefined`) on freshly defaulted metadata. -/
structure EmotionalMetadata where
  trustLevel : ℝ
  importancePattern : String
  emotionalResonance : ℝ
  lastUpdated : ℝ
  isUserPreference : Bool
  accessibilityFlag : Bool
  createdAt : ℝ
  decayRate : Option ℝ
  lastAccessed : Option ℝ

/-- A graph entity: name, type label, observation strings, optional
emotional metadata (load guarantees it is present; raw store records may
lack it). -/
structure Entity where
  name : String
  entityType : String
  observations : List String
  emotionalMetadata : Option EmotionalMetadata

/-- A directed typed relation between entity names. -/
structure Relation where
  «from» : String
  «to» : String
  relationType : String
  strength : Option ℝ

/-- The graph-level metadata envelope (the modelled fields). -/
structure GraphMetadata where
  version : String
  createdAt : ℝ
  lastUpdated : ℝ
  totalInteractions : ℕ

/-- The in-memory knowledge graph. -/
structure Graph where
  entities : List Entity
  relations : List Relation
  metadata : GraphMetadata

/-- One logical line of the persisted store: a self-describing record tagged
`metadata`/`entity`/`relation`, or a line the loader skips (unparsable JSON or
an unrecognised `type` tag). -/
inductive Record where
  | metadata (m : GraphMetadata)
  | entity (e : Entity)
  | relation (r : Relation)
  | malformed

/-- The literal string the source uses to join and split store lines:
`lines.join("\\n")` / `data.split("\\n")` in `enhanced-memory.js` is the
two-character sequence backslash-`n`, not a newline. -/
def memoryFileSeparator : String := "\\n"

/-- JS `lines.join(sep)` on the serialized record lines. -/
def joinRecordLines (lines : List String) : String :=
  String.intercalate memoryFileSeparator lines

/-- JS `data.split("\\n")` over the character sequence of the store text:
left-to-right, non-overlapping split on the literal two-character
backslash-`n` separator. -/
def splitMemorySeparator : List Char → List (List Char)
  | '\\' :: 'n' :: rest => [] :: splitMemorySeparator rest
  | c :: rest =>
      match splitMemorySeparator rest with
      | [] => [[c]]
      | l :: ls => (c :: l) :: ls
  | [] => [[]]

/-- JS `lines.join("\\n")` over character sequences. -/
def joinStoreLineChars (lines : List (List Char)) : List Char :=
  List.intercalate ['\\', 'n'] lines

/-- The line list `loadGraph` iterates over:
`data.split("\\n").filter(line => line.trim() !== "")` — a fragment survives
the filter exactly when it contains a non-whitespace character. -/
def splitStoreLines (data : List Char) : List (List Char) :=
  (splitMemorySeparator data).filter (fun line => line.any (fun c => !c.isWhitespace))

/-- Error values of `types.js` (`MemoryError` and subclasses) that the
manager can throw. -/
inductive MemoryFailure where
  | memoryError (message code : String)
  | userPreferenceError (message : String)

/-- JS `x || fallback` on an optional number: `undefined` and the falsy
number `0` both select the fallback. -/
def jsNumberOr (value : Option ℝ) (fallback : ℝ) : ℝ :=
  match value with
  | none => fallback
  | some x => if x = 0 then fallback else x

/-! ## Metadata model: keyword inference and defaults -/

def preferenceKeywords : List String :=
  ["uses zsh", "uses bash", "prefers", "likes", "dislikes",
   "working style", "communication style", "needs", "requires"]

def accessibilityKeywords : List String :=
  ["screen reader", "vision impaired", "slow pace", "accessibility",
   "visual impairment", "hearing", "motor", "cognitive", "disability"]

def relationshipKeywords : List String :=
  ["bond", "relationship", "collaboration", "team", "partnership",
   "trust", "working together", "connection", "rapport"]

def relationshipTypes : List String :=
  ["relationship", "bond", "collaboration", "team", "partnership"]

/-- The lowercase-joined text `\x7bname} \x7bentityType} \x7bobservations.join(' ')}`
used by all keyword detectors. -/
def entityContent (entity : Entity) : String :=
  (entity.name ++ " " ++ entity.entityType ++ " "
    ++ String.intercalate " " entity.observations).toLower

/-- `isUserPreference(entity)` keyword detector. -/
def isUserPreference (entity : Entity) : Bool :=
  preferenceKeywords.any (fun keyword => containsStr (entityContent entity) keyword)

/-- `isAccessibilityRelated(entity)` keyword detector. -/
def isAccessibilityRelated (entity : Entity) : Bool :=
  accessibilityKeywords.any (fun keyword => containsStr (entityContent entity) keyword)

/-- `isRelationshipEntity(entity)`: keyword match over the joined content or
type-label match. -/
def isRelationshipEntity (entity : Entity) : Bool :=
  (relationshipKeywords.any (fun keyword => containsStr (entityContent entity) keyword))
    || (relationshipTypes.any (fun t => containsStr entity.entityType.toLower t))

/-- `createDefaultEmotionalMetadata(entity)`. -/
def createDefaultEmotionalMetadata (now : ℝ) (entity : Entity) : EmotionalMetadata :=
  let isPreference := isUserPreference entity
  let isAccessibility := isAccessibilityRelated entity
  let isRelationship := isRelationshipEntity entity
  { trustLevel := 0.5
    importancePattern :=
      if isPreference then "preference"
      else if isRelationship then "strengthen"
      else "time-based"
    emotionalResonance :=
      if isPreference then 0.9 else if isRelationship then 0.7 else 0.5
    lastUpdated := now
    isUserPreference := isPreference
    accessibilityFlag := isAccessibility
    createdAt := now
    decayRate := none
    lastAccessed := none }

/-! ## Persistence: load -/

/-- The in-code default metadata envelope `loadGraph` starts from. -/
def defaultGraphMetadata (now : ℝ) : GraphMetadata :=
  { version := "1.0.0", createdAt := now, lastUpdated := now, totalInteractions := 0 }

/-- Attach default emotional metadata when a loaded entity record lacks it. -/
def ensureEmotionalMetadata (now : ℝ) (entity : Entity) : Entity :=
  match entity.emotionalMetadata with
  | some _ => entity
  | none => { entity with emotionalMetadata := some (createDefaultEmotionalMetadata now entity) }

/-- One step of the `lines.forEach` loop in `loadGraph`. -/
def loadRecord (now : ℝ) (graph : Graph) : Record → Graph
  | .entity e => { graph with entities := graph.entities ++ [ensureEmotionalMetadata now e] }
  | .relation r => { graph with relations := graph.relations ++ [r] }
  | .metadata m => { graph with metadata := m }
  | .malformed => graph

/-- `loadGraph()` over an existing store, starting from the already split
and JSON-parsed line list (the missing-file bootstrap branch is not
exercised by any claim).  The `data.split("\\n")` text layer is modelled
separately by `splitStoreLines`; because the literal backslash-`n`
separator collides with JSON's `\n` string escape, that layer does not
always preserve record boundaries — see the store-separator theorems. -/
def loadGraph (now : ℝ) (store : List Record) : Graph :=
  store.foldl (loadRecord now) ⟨[], [], defaultGraphMetadata now⟩

/-! ## Decay engine -/

/-- The per-metadata decay rule (`switch (metadata.importancePattern)` body),
followed by the unconditional `metadata.lastUpdated = now.toISOString()`. -/
def decayMetadata (now : ℝ) (m : EmotionalMetadata) : EmotionalMetadata :=
  let hoursSinceUpdate := (now - m.lastUpdated) / (1000 * 60 * 60)
  let m' :=
    if m.importancePattern = "preference" then
      { m with emotionalResonance := min 1.0 (m.emotionalResonance * 1.001) }
    else if m.importancePattern = "strengthen" then
      { m with trustLevel := min 1.0 (m.trustLevel * 1.002)
               emotionalResonance := min 1.0 (m.emotionalResonance * 1.001) }
    else if m.importancePattern = "time-based" then
      let decayRate := jsNumberOr m.decayRate 0.5
      let decayFactor := Real.rpow decayRate (hoursSinceUpdate / 168)
      { m with emotionalResonance := max 0.1 (m.emotionalResonance * decayFactor) }
    else
      m
  { m' with lastUpdated := now }

/-- The per-entity body of the decay loop: entities without emotional
metadata are skipped entirely. -/
def decayEntity (now : ℝ) (entity : Entity) : Entity :=
  match entity.emotionalMetadata with
  | none => entity
  | some m => { entity with emotionalMetadata := some (decayMetadata now m) }

/-- `applyEmotionalDecay(graph)`: under the one-hour guard nothing happens;
otherwise every entity is decayed and `lastDecayCheck` advances to `now`.
Returns the new `lastDecayCheck` with the updated graph. -/
def applyEmotionalDecay (lastDecayCheck now : ℝ) (graph : Graph) : ℝ × Graph :=
  let hoursSinceLastDecay := (now - lastDecayCheck) / (1000 * 60 * 60)
  if hoursSinceLastDecay < 1 then (lastDecayCheck, graph)
  else (now, { graph with entities := graph.entities.map (decayEntity now) })

/-! ## Persistence: save -/

/-- Result of `saveGraph`: the advanced decay timestamp, the in-memory graph
after the decay side effect, and the record lines written to the store. -/
structure SaveOutcome where
  lastDecayCheck : ℝ
  graph : Graph
  records : List Record

/-- `saveGraph(graph)`: stamp the envelope, run the decay engine, then
rewrite the whole store as one metadata record, all entity records, all
relation records.  The record list is the logical content written; the
physical text joins the serialized lines with the literal backslash-`n`
separator (`joinRecordLines`/`joinStoreLineChars`), which does not preserve
record boundaries for strings whose JSON serialization contains the `\n`
escape — see the store-separator theorems. -/
def saveGraph (lastDecayCheck now : ℝ) (graph : Graph) : SaveOutcome :=
  let graph := { graph with metadata :=
    { graph.metadata with lastUpdated := now
                          totalInteractions := graph.metadata.totalInteractions + 1 } }
  let check := (applyEmotionalDecay lastDecayCheck now graph).1
  let graph := (applyEmotionalDecay lastDecayCheck now graph).2
  { lastDecayCheck := check
    graph := graph
    records := Record.metadata graph.metadata
      :: (graph.entities.map Record.entity ++ graph.relations.map Record.relation) }

/-! ## Ranked search -/

/-- The score `searchNodes` assigns to one entity: lexical matches plus the
emotional-relevance boost (the boost is skipped when the entity somehow has
no emotional metadata). -/
def entityScore (query : String) (entity : Entity) : ℝ :=
  let queryLower := query.toLower
  let textScore : ℝ :=
    (if containsStr entity.name.toLower queryLower then 10 else 0)
      + (if containsStr entity.entityType.toLower queryLower then 5 else 0)
      + (if entity.observations.any (fun o => containsStr o.toLower queryLower) then 3 else 0)
  match entity.emotionalMetadata with
  | none => textScore
  | some m =>
      textScore + m.emotionalResonance * 2
        + (if m.isUserPreference then 5 else 0)
        + (if m.accessibilityFlag then 3 else 0)
        + m.trustLevel * 2

/-- Result shape of `searchNodes`/`openNodes`. -/
structure SearchResult where
  entities : List Entity
  relations : List Relation
  metadata : GraphMetadata

/-- `searchNodes(query)` on a loaded graph: score, drop non-positive scores,
stable-sort descending (JS `Array.prototype.sort` with comparator
`(a, b) => b.score - a.score` is stable), and keep only relations whose two
endpoints both survive. -/
def searchNodes (query : String) (graph : Graph) : SearchResult :=
  let scoredEntities :=
    (List.mergeSort
        ((graph.entities.map (fun entity => (entity, entityScore query entity))).filter
          (fun item => decide (0 < item.2)))
        (fun a b => decide (b.2 ≤ a.2))).map (fun item => item.1)
  let entityNames := scoredEntities.map (fun e => e.name)
  { entities := scoredEntities
    relations := graph.relations.filter
      (fun r => entityNames.contains r.«from» && entityNames.contains r.«to»)
    metadata := graph.metadata }

/-! ## Graph mutation operations (load → mutate → save round trips) -/

/-- `createEntities(entities)`: drop candidates whose name already exists,
default missing metadata, append, save.  Returns the save outcome and the
list of entities actually inserted (the function's return value). -/
def createEntities (lastDecayCheck now : ℝ) (store : List Record)
    (entities : List Entity) : SaveOutcome × List Entity :=
  let graph := loadGraph now store
  let newEntities :=
    (entities.filter (fun e => !(graph.entities.any (fun ex => ex.name == e.name)))).map
      (fun entity =>
        { entity with
          emotionalMetadata :=
            some (entity.emotionalMetadata.getD (createDefaultEmotionalMetadata now entity)) })
  let graph := { graph with entities := graph.entities ++ newEntities }
  (saveGraph lastDecayCheck now graph, newEntities)

/-- One observation-addition request. -/
structure ObservationRequest where
  entityName : String
  contents : List String

/-- Per-request result of `addObservations`. -/
structure ObservationResult where
  entityName : String
  addedObservations : List String

/-- Replace the first list element satisfying `p` (JS `Array.find` returns a
reference that the code then mutates in place). -/
def updateFirst (p : α → Bool) (f : α → α) : List α → List α
  | [] => []
  | a :: as => if p a then f a :: as else a :: updateFirst p f as

/-- The body of the `observations.map` callback in `addObservations`:
locate the entity (throwing `UserPreferenceError` when absent), silently
filter observation strings already present, append the rest, stamp the
metadata and bump trust by 0.01 (clamped to 1) when anything was added. -/
def addObservationOne (now : ℝ) (graph : Graph) (o : ObservationRequest) :
    Except MemoryFailure (Graph × ObservationResult) :=
  match graph.entities.find? (fun e => e.name == o.entityName) with
  | none => .error (.userPreferenceError ("Entity with name " ++ o.entityName ++ " not found"))
  | some entity =>
      let newObservations :=
        o.contents.filter (fun content => !(entity.observations.contains content))
      let touch : Entity → Entity := fun e =>
        let e := { e with observations := e.observations ++ newObservations }
        match e.emotionalMetadata with
        | none => e
        | some m =>
            { e with
              emotionalMetadata :=
                some { m with
                       lastUpdated := now
                       lastAccessed := some now
                       trustLevel :=
                         if newObservations.length > 0 then
                           min 1.0 (m.trustLevel + 0.01)
                         else m.trustLevel } }
      .ok ({ graph with entities :=
               updateFirst (fun e => e.name == o.entityName) touch graph.entities },
           { entityName := o.entityName, addedObservations := newObservations })

/-- The sequential `observations.map` traversal: the first missing entity
name throws, aborting the rest of the batch. -/
def addObservationsAll (now : ℝ) (graph : Graph) :
    List ObservationRequest → Except MemoryFailure (Graph × List ObservationResult)
  | [] => .ok (graph, [])
  | o :: os =>
      match addObservationOne now graph o with
      | .error e => .error e
      | .ok (graph', r) =>
          match addObservationsAll now graph' os with
          | .error e => .error e
          | .ok (graph'', rs) => .ok (graph'', r :: rs)

/-- `addObservations(observations)` as a whole operation.  On success the
mutated graph is saved; a thrown `UserPreferenceError` propagates before
`saveGraph` is reached. -/
def addObservations (lastDecayCheck now : ℝ) (store : List Record)
    (observations : List ObservationRequest) :
    Except MemoryFailure (SaveOutcome × List ObservationResult) :=
  let graph := loadGraph now store
  match addObservationsAll now graph observations with
  | .error e => .error e
  | .ok (graph', results) => .ok (saveGraph lastDecayCheck now graph', results)

/-- The store contents after running `addObservations`: on a throw the
`fs.writeFile` call is never reached, so the persisted file keeps its old
contents. -/
def persistedStoreAfterAddObservations (lastDecayCheck now : ℝ) (store : List Record)
    (observations : List ObservationRequest) : List Record :=
  match addObservations lastDecayCheck now store observations with
  | .error _ => store
  | .ok (outcome, _) => outcome.records

/-- `deleteEntities(entityNames)`: drop named entities and every relation
touching them, then save. -/
def deleteEntities (lastDecayCheck now : ℝ) (store : List Record)
    (entityNames : List String) : SaveOutcome :=
  let graph := loadGraph now store
  let graph := { graph with
    entities := graph.entities.filter (fun e => !(entityNames.contains e.name))
    relations := graph.relations.filter
      (fun r => !(entityNames.contains r.«from») && !(entityNames.contains r.«to»)) }
  saveGraph lastDecayCheck now graph

/-- `createRelations(relations)`: drop duplicates of an existing
(from, to, relationType) triple, append, save. -/
def createRelations (lastDecayCheck now : ℝ) (store : List Record)
    (relations : List Relation) : SaveOutcome × List Relation :=
  let graph := loadGraph now store
  let newRelations := relations.filter (fun r =>
    !(graph.relations.any (fun existing =>
      existing.«from» == r.«from» && existing.«to» == r.«to»
        && existing.relationType == r.relationType)))
  let graph := { graph with relations := graph.relations ++ newRelations }
  (saveGraph lastDecayCheck now graph, newRelations)

/-- One observation-deletion request. -/
structure DeletionRequest where
  entityName : String
  observations : List String

/-- `deleteObservations(deletions)`: per request, drop exact-match
observation strings on the named entity (every array occurrence of the name
is affected by `forEach`+`find` on the first match) and stamp `lastUpdated`;
missing names are ignored. -/
def deleteObservations (lastDecayCheck now : ℝ) (store : List Record)
    (deletions : List DeletionRequest) : SaveOutcome :=
  let graph := loadGraph now store
  let graph := deletions.foldl (fun g d =>
    match g.entities.find? (fun e => e.name == d.entityName) with
    | none => g
    | some _ =>
        { g with
          entities := updateFirst (fun e => e.name == d.entityName)
            (fun e =>
              let e :=
                { e with
                  observations :=
                    e.observations.filter (fun o => !(d.observations.contains o)) }
              match e.emotionalMetadata with
              | none => e
              | some m => { e with emotionalMetadata := some { m with lastUpdated := now } })
            g.entities }) graph
  saveGraph lastDecayCheck now graph

/-! ## Helper lemmas -/

theorem applyEmotionalDecay_guard {check now : ℝ} (g : Graph)
    (h : (now - check) / (1000 * 60 * 60) < 1) :
    applyEmotionalDecay check now g = (check, g) := by
  simp [applyEmotionalDecay, h]

theorem applyEmotionalDecay_pass {check now : ℝ} (g : Graph)
    (h : ¬ (now - check) / (1000 * 60 * 60) < 1) :
    applyEmotionalDecay check now g
      = (now, { g with entities := g.entities.map (decayEntity now) }) := by
  simp [applyEmotionalDecay, h]

theorem saveGraph_def (check now : ℝ) (g : Graph) :
    saveGraph check now g =
      { lastDecayCheck := if (now - check) / (1000 * 60 * 60) < 1 then check else now
        graph :=
          { entities :=
              if (now - check) / (1000 * 60 * 60) < 1 then g.entities
              else g.entities.map (decayEntity now)
            relations := g.relations
            metadata := { g.metadata with lastUpdated := now
                                          totalInteractions := g.metadata.totalInteractions + 1 } }
        records :=
          Record.metadata
              { g.metadata with lastUpdated := now
                                totalInteractions := g.metadata.totalInteractions + 1 }
            :: ((if (now - check) / (1000 * 60 * 60) < 1 then g.entities
                 else g.entities.map (decayEntity now)).map Record.entity
                  ++ g.relations.map Record.relation) } := by
  by_cases h : (now - check) / (1000 * 60 * 60) < 1 <;>
    simp [saveGraph, applyEmotionalDecay, h]

theorem decayEntity_lastUpdated (now : ℝ) (e : Entity) (m : EmotionalMetadata)
    (h : e.emotionalMetadata = some m) :
    (decayEntity now e).emotionalMetadata = some (decayMetadata now m) := by
  simp [decayEntity, h]

/-- Projection of a `Record` to its entity payload. -/
def recordEntity? : Record → Option Entity
  | .entity e => some e
  | _ => none

/-- Projection of a `Record` to its relation payload. -/
def recordRelation? : Record → Option Relation
  | .relation r => some r
  | _ => none

theorem foldl_loadRecord_entities (now : ℝ) (store : List Record) :
    ∀ g : Graph, (store.foldl (loadRecord now) g).entities
      = g.entities ++ (store.filterMap recordEntity?).map (ensureEmotionalMetadata now) := by
  induction store with
  | nil => simp
  | cons r rs ih =>
      intro g
      cases r <;> simp [loadRecord, recordEntity?, ih]

theorem foldl_loadRecord_relations (now : ℝ) (store : List Record) :
    ∀ g : Graph, (store.foldl (loadRecord now) g).relations
      = g.relations ++ store.filterMap recordRelation? := by
  induction store with
  | nil => simp
  | cons r rs ih =>
      intro g
      cases r <;> simp [loadRecord, recordRelation?, ih]

theorem loadGraph_entities (now : ℝ) (store : List Record) :
    (loadGraph now store).entities
      = (store.filterMap recordEntity?).map (ensureEmotionalMetadata now) := by
  simp [loadGraph, foldl_loadRecord_entities]

theorem loadGraph_relations (now : ℝ) (store : List Record) :
    (loadGraph now store).relations = store.filterMap recordRelation? := by
  simp [loadGraph, foldl_loadRecord_relations]

theorem ensureEmotionalMetadata_isSome (now : ℝ) (e : Entity) :
    (ensureEmotionalMetadata now e).emotionalMetadata.isSome := by
  cases h : e.emotionalMetadata <;> simp [ensureEmotionalMetadata, h]

theorem ensureEmotionalMetadata_of_isSome (now : ℝ) (e : Entity)
    (h : e.emotionalMetadata.isSome) : ensureEmotionalMetadata now e = e := by
  cases hm : e.emotionalMetadata with
  | some m => simp [ensureEmotionalMetadata, hm]
  | none => rw [hm] at h; simp at h

theorem loadGraph_metadata_isSome (now : ℝ) (store : List Record) :
    ∀ e ∈ (loadGraph now store).entities, e.emotionalMetadata.isSome := by
  intro e he
  rw [loadGraph_entities] at he
  obtain ⟨e', -, rfl⟩ := List.mem_map.mp he
  exact ensureEmotionalMetadata_isSome now e'

/-- The (name, type label, observation sequence) projection of an entity. -/
def entityShape (e : Entity) : String × String × List String :=
  (e.name, e.entityType, e.observations)

theorem decayEntity_shape (now : ℝ) (e : Entity) :
    entityShape (decayEntity now e) = entityShape e := by
  cases h : e.emotionalMetadata <;> simp [decayEntity, h, entityShape]

theorem decayEntity_isSome (now : ℝ) (e : Entity) :
    (decayEntity now e).emotionalMetadata.isSome = e.emotionalMetadata.isSome := by
  cases h : e.emotionalMetadata <;> simp [decayEntity, h]

/-! ## Concrete fixtures for witnesses and counterexamples -/

/-- Concrete emotional metadata with the given pattern and scores. -/
def mkMeta (pattern : String) (trust resonance lastUpd : ℝ) : EmotionalMetadata :=
  { trustLevel := trust, importancePattern := pattern, emotionalResonance := resonance,
    lastUpdated := lastUpd, isUserPreference := false, accessibilityFlag := false,
    createdAt := 0, decayRate := none, lastAccessed := none }

/-- Concrete entity with the given name and metadata. -/
def mkEntity (name pattern : String) (trust resonance lastUpd : ℝ) : Entity :=
  { name := name, entityType := "note", observations := [],
    emotionalMetadata := some (mkMeta pattern trust resonance lastUpd) }

/-! ## Claims -/

/-- C1: when a decay pass runs (at least one hour since the last pass), every
entity carrying emotional metadata gets exactly the rule selected by its
`importancePattern` — `preference`: resonance `*= 1.001` clamped to ≤ 1;
`strengthen`: trust `*= 1.002` and resonance `*= 1.001`, both clamped to ≤ 1;
`time-based`: resonance `*= decayRate ^ (hoursElapsed / 168)` (hours measured
from that entity's `lastUpdated`) clamped to ≥ 0.1, where an absent
`decayRate` — the only kind `createDefaultEmotionalMetadata` produces — and
the JS-falsy value 0 both default to 0.5 via `metadata.decayRate || 0.5`;
`self-managed`: scores unchanged — and afterwards `lastUpdated` is the
pass's invocation time for every such entity, the unaffected ones
included. -/
theorem decay_pass_applies_pattern_rules
    (lastDecayCheck now : ℝ) (graph : Graph)
    (hpass : ¬ (now - lastDecayCheck) / (1000 * 60 * 60) < 1) :
    (applyEmotionalDecay lastDecayCheck now graph).2.entities
        = graph.entities.map (decayEntity now)
    ∧ (∀ e : Entity, ∀ m, e.emotionalMetadata = some m →
        (decayEntity now e).emotionalMetadata = some (decayMetadata now m))
    ∧ (∀ m : EmotionalMetadata,
        (m.importancePattern = "preference" →
          decayMetadata now m =
            { m with emotionalResonance := min 1 (m.emotionalResonance * 1.001)
                     lastUpdated := now })
        ∧ (m.importancePattern = "strengthen" →
          decayMetadata now m =
            { m with trustLevel := min 1 (m.trustLevel * 1.002)
                     emotionalResonance := min 1 (m.emotionalResonance * 1.001)
                     lastUpdated := now })
        ∧ (m.importancePattern = "time-based" → ∀ d, m.decayRate = some d → d ≠ 0 →
          decayMetadata now m =
            { m with emotionalResonance :=
                       max 0.1 (m.emotionalResonance
                         * Real.rpow d (((now - m.lastUpdated) / (1000 * 60 * 60)) / 168))
                     lastUpdated := now })
        ∧ (m.importancePattern = "time-based" → m.decayRate = none →
          decayMetadata now m =
            { m with emotionalResonance :=
                       max 0.1 (m.emotionalResonance
                         * Real.rpow 0.5 (((now - m.lastUpdated) / (1000 * 60 * 60)) / 168))
                     lastUpdated := now })
        ∧ (m.importancePattern = "time-based" → m.decayRate = some 0 →
          decayMetadata now m =
            { m with emotionalResonance :=
                       max 0.1 (m.emotionalResonance
                         * Real.rpow 0.5 (((now - m.lastUpdated) / (1000 * 60 * 60)) / 168))
                     lastUpdated := now })
        ∧ (m.importancePattern = "self-managed" →
          decayMetadata now m = { m with lastUpdated := now })
        ∧ (decayMetadata now m).lastUpdated = now) := by
  refine ⟨by simp [applyEmotionalDecay_pass _ hpass], fun e m h => by simp [decayEntity, h],
    fun m => ⟨?_, ?_, ?_, ?_, ?_, ?_, ?_⟩⟩
  · intro h
    simp [decayMetadata, h]
    norm_num
  · intro h
    simp [decayMetadata, h]
    norm_num
  · intro h d hd hd0
    simp [decayMetadata, h, jsNumberOr, hd, hd0]
  · intro h hd
    simp [decayMetadata, h, jsNumberOr, hd]
  · intro h hd
    simp [decayMetadata, h, jsNumberOr, hd]
  · intro h
    simp [decayMetadata, h]
  · simp [decayMetadata]

/-- C1 witness: the theorem applied at a concrete pass exactly one hour after
the last decay check. -/
theorem decay_pass_applies_pattern_rules_witness :
    (applyEmotionalDecay 0 3600000 ⟨[mkEntity "A" "self-managed" 0.5 0.5 0], [],
        defaultGraphMetadata 0⟩).2.entities
      = [mkEntity "A" "self-managed" 0.5 0.5 0].map (decayEntity 3600000) :=
  (decay_pass_applies_pattern_rules 0 3600000
    ⟨[mkEntity "A" "self-managed" 0.5 0.5 0], [], defaultGraphMetadata 0⟩ (by norm_num)).1

/-- C7 counterexample: two saves 0.6 hours apart.  The first save falls under
the one-hour guard (0.6 hours since the engine's last invocation), so
`lastDecayCheck` does not advance; the second save then sees 1.2 hours
elapsed and runs a full decay pass, changing the entity's `lastUpdated` and
resonance — so the two saves do not leave the emotional metadata identical. -/
theorem decay_two_saves_within_hour_counterexample :
    ((4320000 : ℝ) - 2160000) / (1000 * 60 * 60) < 1
    ∧ ((saveGraph
          (saveGraph 0 2160000
            ⟨[mkEntity "S" "preference" 0.5 0.5 0], [], defaultGraphMetadata 0⟩).lastDecayCheck
          4320000
          (saveGraph 0 2160000
            ⟨[mkEntity "S" "preference" 0.5 0.5 0], [], defaultGraphMetadata 0⟩).graph).graph.entities.map
        (fun e => e.emotionalMetadata))
      ≠ ((saveGraph 0 2160000
            ⟨[mkEntity "S" "preference" 0.5 0.5 0], [], defaultGraphMetadata 0⟩).graph.entities.map
        (fun e => e.emotionalMetadata)) := by
  constructor
  · norm_num
  · rw [saveGraph_def, saveGraph_def]
    norm_num [decayEntity, decayMetadata, mkEntity, mkMeta, EmotionalMetadata.mk.injEq]

/-- C7 amended: the decay engine is a no-op whenever less than one hour has
elapsed since its recorded last invocation, and two saves within one hour of
each other leave every entity's emotional metadata identical provided the
first of them actually runs a decay pass (at least one hour after the
recorded last invocation).  As stated the claim fails when the first save
falls under the guard and the second crosses the one-hour threshold measured
from the older invocation timestamp. -/
theorem decay_noop_within_hour_of_pass
    (check t1 t2 : ℝ) (g : Graph)
    (hfirst : ¬ (t1 - check) / (1000 * 60 * 60) < 1)
    (hclose : (t2 - t1) / (1000 * 60 * 60) < 1) :
    (∀ c n (g' : Graph), (n - c) / (1000 * 60 * 60) < 1 →
        applyEmotionalDecay c n g' = (c, g'))
    ∧ (saveGraph (saveGraph check t1 g).lastDecayCheck t2
          (saveGraph check t1 g).graph).graph.entities
        = (saveGraph check t1 g).graph.entities := by
  refine ⟨fun c n g' h => applyEmotionalDecay_guard g' h, ?_⟩
  rw [saveGraph_def, saveGraph_def]
  simp [hfirst, hclose]

/-- C7 witness: the amended theorem at a concrete pair of saves, the first
exactly one hour after the last invocation and the second a millisecond
later. -/
theorem decay_noop_within_hour_of_pass_witness :
    (∀ c n (g' : Graph), (n - c) / (1000 * 60 * 60) < 1 →
        applyEmotionalDecay c n g' = (c, g'))
    ∧ (saveGraph
          (saveGraph 0 3600000
            ⟨[mkEntity "S" "preference" 0.5 0.5 0], [], defaultGraphMetadata 0⟩).lastDecayCheck
          3600001
          (saveGraph 0 3600000
            ⟨[mkEntity "S" "preference" 0.5 0.5 0], [], defaultGraphMetadata 0⟩).graph).graph.entities
        = (saveGraph 0 3600000
            ⟨[mkEntity "S" "preference" 0.5 0.5 0], [], defaultGraphMetadata 0⟩).graph.entities :=
  decay_noop_within_hour_of_pass 0 3600000 3600001
    ⟨[mkEntity "S" "preference" 0.5 0.5 0], [], defaultGraphMetadata 0⟩
    (by norm_num) (by norm_num)

theorem loadGraph_of_saved_records (t : ℝ) (md : GraphMetadata)
    (E : List Entity) (R : List Relation) :
    (loadGraph t (Record.metadata md :: (E.map Record.entity ++ R.map Record.relation))).entities
        = E.map (ensureEmotionalMetadata t)
    ∧ (loadGraph t (Record.metadata md :: (E.map Record.entity ++ R.map Record.relation))).relations
        = R := by
  constructor
  · rw [loadGraph_entities]
    simp [recordEntity?, List.filterMap_cons, List.filterMap_append, List.filterMap_map,
      Function.comp_def]
  · rw [loadGraph_relations]
    simp [recordRelation?, List.filterMap_cons, List.filterMap_append, List.filterMap_map,
      Function.comp_def]

theorem map_ensure_of_isSome (t : ℝ) (l : List Entity)
    (h : ∀ e ∈ l, e.emotionalMetadata.isSome) :
    l.map (ensureEmotionalMetadata t) = l := by
  induction l with
  | nil => rfl
  | cons e es ih =>
      rw [List.map_cons, ensureEmotionalMetadata_of_isSome t e (h e (by simp)),
        ih (fun x hx => h x (by simp [hx]))]

/-- C4: `save` stamps the envelope, runs the decay engine first, and rewrites
the whole store as exactly one metadata record followed by one record per
entity and then one record per relation — but the records are NOT
newline-delimited: the code joins (and re-splits) the serialized lines with
the literal two-character sequence backslash-`n` (`lines.join("\\n")`), so a
saved store with several records contains no newline at all and is a single
physical line. -/
theorem save_decay_first_record_order_and_separator :
    (∀ check now : ℝ, ∀ g : Graph,
      (saveGraph check now g).records
          = Record.metadata (saveGraph check now g).graph.metadata
              :: ((saveGraph check now g).graph.entities.map Record.entity
                  ++ (saveGraph check now g).graph.relations.map Record.relation)
      ∧ (saveGraph check now g).graph
          = (applyEmotionalDecay check now
              { g with metadata :=
                  { g.metadata with
                    lastUpdated := now
                    totalInteractions := g.metadata.totalInteractions + 1 } }).2)
    ∧ memoryFileSeparator.toList = ['\\', 'n']
    ∧ joinRecordLines ["a", "b"] = "a\\nb"
    ∧ ¬ '\n' ∈ (joinRecordLines ["a", "b"]).toList := by
  refine ⟨fun check now g => ?_, by decide, by decide, by decide⟩
  by_cases h : (now - check) / (1000 * 60 * 60) < 1 <;>
    simp [saveGraph_def, applyEmotionalDecay, h]

/-- The one-record store text spelling a newline inside an observation with
JSON's `\u000a` escape: it contains no backslash-`n`, so `split("\n")`
keeps it whole. -/
def newlineUnicodeEscapeLine : List Char :=
  ("\x7b\"type\":\"entity\",\"name\":\"E\",\"entityType\":\"t\",\"observations\":[\"a\\u000ab\"]\x7d").toList

/-- The same record as `JSON.stringify` re-serializes it on save: the
newline inside the observation becomes the short `\n` escape — the literal
two characters the store uses as its separator. -/
def newlineEscapeLine : List Char :=
  ("\x7b\"type\":\"entity\",\"name\":\"E\",\"entityType\":\"t\",\"observations\":[\"a\\nb\"]\x7d").toList

/-- C5: load-save-load does NOT always yield the same entity set — the
claim fails at the store's text layer.  A store whose entity record spells
a newline in an observation with the `\u000a` escape loads whole (first
conjunct: the split leaves it as one line); saving re-serializes that
newline as JSON's `\n` escape, which is exactly the literal join
separator, so the next load's `split("\n")` cuts the record into two
fragments (second and third conjuncts) — neither fragment is a JSON
object, both are skipped as malformed, and the entity is lost. -/
theorem roundtrip_shattered_by_newline_escape :
    splitStoreLines (joinStoreLineChars [newlineUnicodeEscapeLine])
        = [newlineUnicodeEscapeLine]
    ∧ (splitStoreLines (joinStoreLineChars [newlineEscapeLine])).length = 2
    ∧ splitStoreLines (joinStoreLineChars [newlineEscapeLine]) ≠ [newlineEscapeLine] := by
  refine ⟨by decide, by decide, by decide⟩

/-- Record-level round trip: once record boundaries survive the physical
join/split (which they do not in general — the store separator collides
with JSON's `\n` escape, see `roundtrip_shattered_by_newline_escape`), the
rest of the load/save pipeline preserves entities by (name, type,
observations) and preserves relations exactly. -/
theorem load_save_load_roundtrip
    (t1 t2 t3 check : ℝ) (store : List Record) :
    (loadGraph t3 (saveGraph check t2 (loadGraph t1 store)).records).entities.map entityShape
        = (loadGraph t1 store).entities.map entityShape
    ∧ (loadGraph t3 (saveGraph check t2 (loadGraph t1 store)).records).relations
        = (loadGraph t1 store).relations := by
  have hsome := loadGraph_metadata_isSome t1 store
  rw [saveGraph_def]
  by_cases hg : (t2 - check) / (1000 * 60 * 60) < 1
  · simp only [hg, if_true]
    refine ⟨?_, (loadGraph_of_saved_records t3 _ _ _).2⟩
    rw [(loadGraph_of_saved_records t3 _ _ _).1, map_ensure_of_isSome t3 _ hsome]
  · simp only [hg, if_false]
    refine ⟨?_, (loadGraph_of_saved_records t3 _ _ _).2⟩
    rw [(loadGraph_of_saved_records t3 _ _ _).1, map_ensure_of_isSome t3 _ ?_]
    · rw [List.map_map]
      exact List.map_congr_left (fun e _ => decayEntity_shape t2 e)
    · intro e he
      obtain ⟨e', he', rfl⟩ := List.mem_map.mp he
      rw [decayEntity_isSome]
      exact hsome e' he'

theorem updateFirst_map (p : α → Bool) (f : α → α) (g : α → β)
    (hfg : ∀ a, g (f a) = g a) :
    ∀ l : List α, (updateFirst p f l).map g = l.map g := by
  intro l
  induction l with
  | nil => rfl
  | cons a as ih => by_cases hp : p a <;> simp [updateFirst, hp, hfg, ih]

theorem addObservationOne_names (now : ℝ) (g : Graph) (o : ObservationRequest)
    (g' : Graph) (r : ObservationResult)
    (h : addObservationOne now g o = .ok (g', r)) :
    g'.entities.map (fun e => e.name) = g.entities.map (fun e => e.name) := by
  cases hfind : g.entities.find? (fun e => e.name == o.entityName) with
  | none => rw [addObservationOne, hfind] at h; exact absurd h (by simp)
  | some entity =>
      rw [addObservationOne, hfind] at h
      simp only [Except.ok.injEq, Prod.mk.injEq] at h
      obtain ⟨h1, -⟩ := h
      subst h1
      refine updateFirst_map _ _ _ (fun a => ?_) g.entities
      cases ha : a.emotionalMetadata <;> simp [ha]

theorem addObservationsAll_missing (now : ℝ) :
    ∀ (os : List ObservationRequest) (g : Graph),
      (∃ o ∈ os, ∀ e ∈ g.entities, e.name ≠ o.entityName) →
      ∃ name, (∀ e ∈ g.entities, e.name ≠ name)
        ∧ addObservationsAll now g os
            = .error (.userPreferenceError ("Entity with name " ++ name ++ " not found")) := by
  intro os
  induction os with
  | nil => intro g h; simp at h
  | cons o os ih =>
      intro g h
      cases hfind : g.entities.find? (fun e => e.name == o.entityName) with
      | none =>
          refine ⟨o.entityName, fun e he => ?_, ?_⟩
          · simpa using List.find?_eq_none.mp hfind e he
          · simp [addObservationsAll, addObservationOne, hfind]
      | some entity =>
          obtain ⟨o', ho', hmiss⟩ := h
          rcases List.mem_cons.mp ho' with rfl | ho'
          · exact absurd (by simpa using List.find?_some hfind)
              (hmiss entity (List.mem_of_find?_eq_some hfind))
          · cases hstep : addObservationOne now g o with
            | error err =>
                rw [addObservationOne, hfind] at hstep
                exact absurd hstep (by simp)
            | ok pair =>
                have hnames := addObservationOne_names now g o pair.1 pair.2
                  (by rw [hstep])
                have hmiss' : ∃ o'' ∈ os, ∀ e ∈ pair.1.entities, e.name ≠ o''.entityName := by
                  refine ⟨o', ho', fun e he => ?_⟩
                  have hmem : e.name ∈ pair.1.entities.map (fun e => e.name) :=
                    List.mem_map.mpr ⟨e, he, rfl⟩
                  rw [hnames] at hmem
                  obtain ⟨e', he', hee⟩ := List.mem_map.mp hmem
                  rw [← hee]
                  exact hmiss e' he'
                obtain ⟨name, hname, herr⟩ := ih pair.1 hmiss'
                refine ⟨name, fun e he => ?_, ?_⟩
                · have hmem : e.name ∈ g.entities.map (fun e => e.name) :=
                    List.mem_map.mpr ⟨e, he, rfl⟩
                  rw [← hnames] at hmem
                  obtain ⟨e', he', hee⟩ := List.mem_map.mp hmem
                  rw [← hee]
                  exact hname e' he'
                · simp [addObservationsAll, hstep, herr]

/-- C3: an `addObservations` batch naming any entity absent from the graph
throws the `UserPreferenceError` "Entity with name … not found"; the throw
happens before `saveGraph` is reached, so the whole batch is aborted and the
persisted store keeps its previous contents.  Within a request for an
existing entity, observation strings already present are silently filtered
out rather than rejected: the reported `addedObservations` are exactly the
contents not already on the entity. -/
theorem addObservations_missing_entity_aborts :
    (∀ check now : ℝ, ∀ store : List Record, ∀ os : List ObservationRequest,
      (∃ o ∈ os, ∀ e ∈ (loadGraph now store).entities, e.name ≠ o.entityName) →
      (∃ name, addObservations check now store os
          = .error (.userPreferenceError ("Entity with name " ++ name ++ " not found")))
        ∧ persistedStoreAfterAddObservations check now store os = store)
    ∧ (∀ now : ℝ, ∀ g : Graph, ∀ o : ObservationRequest, ∀ entity,
        g.entities.find? (fun e => e.name == o.entityName) = some entity →
        ∃ g', addObservationOne now g o
            = .ok (g', { entityName := o.entityName,
                         addedObservations :=
                           o.contents.filter
                             (fun content => !(entity.observations.contains content)) })) := by
  constructor
  · intro check now store os h
    obtain ⟨name, -, herr⟩ := addObservationsAll_missing now os (loadGraph now store) h
    have herr' : addObservations check now store os
        = .error (.userPreferenceError ("Entity with name " ++ name ++ " not found")) := by
      simp [addObservations, herr]
    exact ⟨⟨name, herr'⟩, by simp [persistedStoreAfterAddObservations, herr']⟩
  · intro now g o entity hfind
    exact ⟨_, by rw [addObservationOne, hfind]⟩

/-- C3 witness: a concrete one-entity store and a request naming an absent
entity. -/
theorem addObservations_missing_entity_aborts_witness :
    ((∃ name, addObservations 0 0 [Record.entity (mkEntity "A" "self-managed" 0.5 0.5 0)]
          [⟨"B", ["x"]⟩]
        = .error (.userPreferenceError ("Entity with name " ++ name ++ " not found")))
      ∧ persistedStoreAfterAddObservations 0 0
          [Record.entity (mkEntity "A" "self-managed" 0.5 0.5 0)] [⟨"B", ["x"]⟩]
        = [Record.entity (mkEntity "A" "self-managed" 0.5 0.5 0)]) :=
  addObservations_missing_entity_aborts.1 0 0
    [Record.entity (mkEntity "A" "self-managed" 0.5 0.5 0)] [⟨"B", ["x"]⟩]
    ⟨⟨"B", ["x"]⟩, by simp, by
      intro e he
      simp [loadGraph_entities, recordEntity?, ensureEmotionalMetadata, mkEntity] at he
      simp [he, mkEntity]⟩

/-- C6 counterexample: an existing `self-managed` entity (metadata
`lastUpdated = 0`) and a colliding candidate, with the save two hours after
the last decay check.  The candidate is dropped and the empty list returned
as claimed, but the existing entity does NOT keep all fields unchanged: the
decay pass triggered by the enclosing save rewrites its metadata
`lastUpdated` (originally 0) to the invocation time. -/
theorem createEntities_existing_fields_counterexample :
    (createEntities 0 7200000 [Record.entity (mkEntity "X" "self-managed" 0.5 0.5 0)]
        [{ name := "X", entityType := "note", observations := [],
           emotionalMetadata := none }]).2 = []
    ∧ ((createEntities 0 7200000 [Record.entity (mkEntity "X" "self-managed" 0.5 0.5 0)]
        [{ name := "X", entityType := "note", observations := [],
           emotionalMetadata := none }]).1.graph.entities.map
          (fun e => e.emotionalMetadata.map (fun m => m.lastUpdated)))
        ≠ [some ((mkMeta "self-managed" 0.5 0.5 0).lastUpdated)] := by
  constructor
  · simp [createEntities, loadGraph, loadRecord, ensureEmotionalMetadata, mkEntity]
  · rw [show (createEntities 0 7200000 [Record.entity (mkEntity "X" "self-managed" 0.5 0.5 0)]
          [{ name := "X", entityType := "note", observations := [],
             emotionalMetadata := none }]).1
        = saveGraph 0 7200000
            ⟨[mkEntity "X" "self-managed" 0.5 0.5 0], [], defaultGraphMetadata 7200000⟩ from ?_]
    · rw [saveGraph_def]
      norm_num [decayEntity, decayMetadata, mkEntity, mkMeta]
    · simp [createEntities, loadGraph, loadRecord, ensureEmotionalMetadata, mkEntity,
        defaultGraphMetadata]

/-- C6 amended: every candidate whose name equals an existing entity's name
is silently dropped (no error) and the returned list is exactly what gets
appended to the graph; an existing entity that collides with a candidate
keeps its name, type and observations unchanged — but its emotional
metadata is still subject to the decay pass that the enclosing save may
trigger (which restamps `lastUpdated` for all entities); when the save
falls under the one-hour guard all existing entities are entirely
unchanged; and a batch consisting only of already-present names returns the
empty list. -/
theorem createEntities_drops_existing_names
    (check now : ℝ) (store : List Record) (batch : List Entity) :
    (∀ e ∈ (createEntities check now store batch).2,
        ∀ ex ∈ (loadGraph now store).entities, ex.name ≠ e.name)
    ∧ ((createEntities check now store batch).1.graph.entities
        = if (now - check) / (1000 * 60 * 60) < 1 then
            (loadGraph now store).entities ++ (createEntities check now store batch).2
          else
            ((loadGraph now store).entities ++ (createEntities check now store batch).2).map
              (decayEntity now))
    ∧ ((createEntities check now store batch).1.graph.entities.map entityShape
        = ((loadGraph now store).entities ++ (createEntities check now store batch).2).map
            entityShape)
    ∧ ((∀ e ∈ batch, ∃ ex ∈ (loadGraph now store).entities, ex.name = e.name) →
        (createEntities check now store batch).2 = []) := by
  have hb : (createEntities check now store batch).1.graph.entities
      = if (now - check) / (1000 * 60 * 60) < 1 then
          (loadGraph now store).entities ++ (createEntities check now store batch).2
        else
          ((loadGraph now store).entities ++ (createEntities check now store batch).2).map
            (decayEntity now) := by
    by_cases hg : (now - check) / (1000 * 60 * 60) < 1 <;>
      simp [createEntities, saveGraph_def, hg]
  refine ⟨?_, hb, ?_, ?_⟩
  · intro e he ex hex
    simp only [createEntities, List.mem_map, List.mem_filter] at he
    obtain ⟨c, ⟨hcb, hcp⟩, rfl⟩ := he
    simp only [Bool.not_eq_true'] at hcp
    have := List.any_eq_false.mp hcp ex hex
    simpa using this
  · rw [hb]
    by_cases hg : (now - check) / (1000 * 60 * 60) < 1
    · rw [if_pos hg]
    · rw [if_neg hg, List.map_map]
      exact List.map_congr_left (fun e _ => decayEntity_shape now e)
  · intro h
    simp only [createEntities]
    rw [List.filter_eq_nil_iff.mpr ?_]
    · simp
    · intro c hc
      obtain ⟨ex, hex, hname⟩ := h c hc
      simp only [Bool.not_eq_true', Bool.not_eq_true]
      rw [Bool.not_eq_false]
      exact List.any_eq_true.mpr ⟨ex, hex, by simp [hname]⟩

/-- C6 witness: the amended theorem applied at the concrete colliding batch
of the counterexample. -/
theorem createEntities_drops_existing_names_witness :
    (createEntities 0 7200000 [Record.entity (mkEntity "X" "self-managed" 0.5 0.5 0)]
        [{ name := "X", entityType := "note", observations := [],
           emotionalMetadata := none }]).2 = [] :=
  (createEntities_drops_existing_names 0 7200000
      [Record.entity (mkEntity "X" "self-managed" 0.5 0.5 0)]
      [{ name := "X", entityType := "note", observations := [],
         emotionalMetadata := none }]).2.2.2
    (by
      intro e he
      simp only [List.mem_singleton] at he
      refine ⟨mkEntity "X" "self-managed" 0.5 0.5 0, ?_, by simp [he, mkEntity]⟩
      simp [loadGraph, loadRecord, ensureEmotionalMetadata, mkEntity])

/-- Iterated saves at the given invocation times, threading the decay
engine's `lastDecayCheck` state. -/
def runSaves (check : ℝ) (g : Graph) : List ℝ → ℝ × Graph
  | [] => (check, g)
  | t :: ts => runSaves (saveGraph check t g).lastDecayCheck (saveGraph check t g).graph ts

/-- Resonance monotonicity between an entity and its successor state: a
`preference`/`strengthen` entity with in-range resonance keeps its pattern
and its resonance never decreases (and stays in range). -/
def ResonanceMono (e e' : Entity) : Prop :=
  ∀ m, e.emotionalMetadata = some m →
    (m.importancePattern = "preference" ∨ m.importancePattern = "strengthen") →
    0 ≤ m.emotionalResonance → m.emotionalResonance ≤ 1 →
    ∃ m', e'.emotionalMetadata = some m'
      ∧ m'.importancePattern = m.importancePattern
      ∧ m.emotionalResonance ≤ m'.emotionalResonance
      ∧ 0 ≤ m'.emotionalResonance ∧ m'.emotionalResonance ≤ 1

theorem resonanceMono_refl (e : Entity) : ResonanceMono e e :=
  fun m hm _ h0 h1 => ⟨m, hm, rfl, le_refl _, h0, h1⟩

theorem min_clamp_grow {r c : ℝ} (h0 : 0 ≤ r) (h1 : r ≤ 1) (hc : 1 ≤ c) :
    r ≤ min 1.0 (r * c) ∧ 0 ≤ min 1.0 (r * c) ∧ min 1.0 (r * c) ≤ 1 := by
  refine ⟨le_min (by norm_num [h1]) (by nlinarith), le_min (by norm_num) (by nlinarith), ?_⟩
  exact le_trans (min_le_left _ _) (by norm_num)

theorem resonanceMono_decay (now : ℝ) (e : Entity) : ResonanceMono e (decayEntity now e) := by
  intro m hm hpat h0 h1
  rw [decayEntity_lastUpdated now e m hm]
  refine ⟨_, rfl, ?_, ?_, ?_, ?_⟩ <;>
    rcases hpat with hp | hp <;>
    simp only [decayMetadata, hp, reduceIte] <;>
    first
      | rfl
      | exact (min_clamp_grow h0 h1 (by norm_num)).1
      | exact (min_clamp_grow h0 h1 (by norm_num)).2.1
      | exact (min_clamp_grow h0 h1 (by norm_num)).2.2

theorem resonanceMono_trans {a b c : Entity}
    (hab : ResonanceMono a b) (hbc : ResonanceMono b c) : ResonanceMono a c := by
  intro m hm hpat h0 h1
  obtain ⟨m1, hm1, hpat1, hle1, h01, h11⟩ := hab m hm hpat h0 h1
  obtain ⟨m2, hm2, hpat2, hle2, h02, h12⟩ := hbc m1 hm1 (by rw [hpat1]; exact hpat) h01 h11
  exact ⟨m2, hm2, by rw [hpat2, hpat1], le_trans hle1 hle2, h02, h12⟩

theorem forall₂_resonanceMono_trans : ∀ {l1 l2 l3 : List Entity},
    List.Forall₂ ResonanceMono l1 l2 → List.Forall₂ ResonanceMono l2 l3 →
    List.Forall₂ ResonanceMono l1 l3 := by
  intro l1 l2 l3 h12
  induction h12 generalizing l3 with
  | nil => intro h23; cases h23; exact .nil
  | cons ha h ih =>
      intro h23
      cases h23 with
      | cons hb h' => exact .cons (resonanceMono_trans ha hb) (ih h')

theorem forall₂_resonanceMono_save (check t : ℝ) (g : Graph) :
    List.Forall₂ ResonanceMono g.entities (saveGraph check t g).graph.entities := by
  rw [saveGraph_def]
  by_cases hg : (t - check) / (1000 * 60 * 60) < 1
  · simp only [hg, if_true]
    exact List.forall₂_same.mpr (fun e _ => resonanceMono_refl e)
  · simp only [hg, if_false]
    exact List.forall₂_map_right_iff.mpr
      (List.forall₂_same.mpr (fun e _ => resonanceMono_decay t e))

/-- C8: a `preference` or `strengthen` entity with resonance in [0, 1] never
loses resonance: a single decay step is monotone (`ResonanceMono e
(decayEntity now e)`), and across any sequence of saves each entity is
related to its final state by `ResonanceMono` — the pattern is kept and the
new resonance is at least the old one. -/
theorem resonance_never_decreases_across_saves :
    (∀ now : ℝ, ∀ e : Entity, ResonanceMono e (decayEntity now e))
    ∧ ∀ (check : ℝ) (g : Graph) (times : List ℝ),
        List.Forall₂ ResonanceMono g.entities (runSaves check g times).2.entities := by
  refine ⟨resonanceMono_decay, ?_⟩
  intro check g times
  induction times generalizing check g with
  | nil => exact List.forall₂_same.mpr (fun e _ => resonanceMono_refl e)
  | cons t ts ih =>
      exact forall₂_resonanceMono_trans (forall₂_resonanceMono_save check t g)
        (ih (saveGraph check t g).lastDecayCheck (saveGraph check t g).graph)

/-- C8 witness: the per-pass monotonicity applied to a concrete `preference`
entity, with the hypotheses of `ResonanceMono` discharged on the concrete
metadata. -/
theorem resonance_never_decreases_across_saves_witness :
    ∃ m', (decayEntity 3600000 (mkEntity "P" "preference" 0.5 0.5 0)).emotionalMetadata
        = some m' ∧ (0.5 : ℝ) ≤ m'.emotionalResonance := by
  obtain ⟨m', hm', -, hle, -, -⟩ :=
    resonance_never_decreases_across_saves.1 3600000 (mkEntity "P" "preference" 0.5 0.5 0)
      (mkMeta "preference" 0.5 0.5 0) (by simp [mkEntity]) (by simp [mkMeta])
      (by simp [mkMeta]; norm_num) (by simp [mkMeta]; norm_num)
  exact ⟨m', hm', by simpa [mkMeta] using hle⟩



def MetadataInRange (m : EmotionalMetadata) : Prop :=
  0 ≤ m.trustLevel ∧ m.trustLevel ≤ 1
    ∧ 0 < m.emotionalResonance ∧ m.emotionalResonance ≤ 1
    ∧ ∀ d, m.decayRate = some d → 0 < d ∧ d ≤ 1

theorem decayMetadata_range (now : ℝ) (m : EmotionalMetadata)
    (hm : MetadataInRange m) (ht : m.lastUpdated ≤ now) :
    MetadataInRange (decayMetadata now m) := by
  obtain ⟨ht0, ht1, hr0, hr1, hd⟩ := hm
  by_cases hp : m.importancePattern = "preference"
  · unfold MetadataInRange
    simp only [decayMetadata, hp, reduceIte]
    refine ⟨ht0, ht1, lt_min (by norm_num) (by nlinarith), ?_, hd⟩
    exact le_trans (min_le_left _ _) (by norm_num)
  · by_cases hs : m.importancePattern = "strengthen"
    · unfold MetadataInRange
      simp only [decayMetadata, hp, hs, reduceIte]
      refine ⟨le_min (by norm_num) (by nlinarith), le_trans (min_le_left _ _) (by norm_num),
        lt_min (by norm_num) (by nlinarith), le_trans (min_le_left _ _) (by norm_num), hd⟩
    · by_cases htb : m.importancePattern = "time-based"
      · have hd' : 0 < jsNumberOr m.decayRate 0.5 ∧ jsNumberOr m.decayRate 0.5 ≤ 1 := by
          cases hdr : m.decayRate with
          | none => unfold jsNumberOr; norm_num
          | some d =>
              unfold jsNumberOr
              by_cases hz : d = 0
              · simp only [hz, reduceIte]
                norm_num
              · simp only [hz, reduceIte]
                exact hd d hdr
        have he : 0 ≤ ((now - m.lastUpdated) / (1000 * 60 * 60)) / 168 :=
          div_nonneg (div_nonneg (sub_nonneg.mpr ht) (by norm_num)) (by norm_num)
        have hfac0 : 0 < Real.rpow (jsNumberOr m.decayRate 0.5)
            (((now - m.lastUpdated) / (1000 * 60 * 60)) / 168) :=
          Real.rpow_pos_of_pos hd'.1 _
        have hfac1 : Real.rpow (jsNumberOr m.decayRate 0.5)
            (((now - m.lastUpdated) / (1000 * 60 * 60)) / 168) ≤ 1 :=
          Real.rpow_le_one (le_of_lt hd'.1) hd'.2 he
        unfold MetadataInRange
        simp only [decayMetadata, hp, hs, htb, reduceIte]
        refine ⟨ht0, ht1, lt_of_lt_of_le (by norm_num) (le_max_left _ _), ?_, hd⟩
        exact max_le (by norm_num)
          (le_trans (mul_le_of_le_one_right (le_of_lt hr0) hfac1) hr1)
      · unfold MetadataInRange
        simp only [decayMetadata, hp, hs, htb, reduceIte]
        exact ⟨ht0, ht1, hr0, hr1, hd⟩



def GraphInRange (g : Graph) : Prop :=
  ∀ e ∈ g.entities, ∃ m, e.emotionalMetadata = some m ∧ MetadataInRange m

def GraphUpdatedBefore (now : ℝ) (g : Graph) : Prop :=
  ∀ e ∈ g.entities, ∀ m, e.emotionalMetadata = some m → m.lastUpdated ≤ now

theorem decayMetadata_lastUpdated_self (now : ℝ) (m : EmotionalMetadata) :
    (decayMetadata now m).lastUpdated = now := by
  simp [decayMetadata]

theorem applyEmotionalDecay_range (check now : ℝ) (g : Graph)
    (hg : GraphInRange g) (hb : GraphUpdatedBefore now g) :
    GraphInRange (applyEmotionalDecay check now g).2
      ∧ GraphUpdatedBefore now (applyEmotionalDecay check now g).2 := by
  by_cases hguard : (now - check) / (1000 * 60 * 60) < 1
  · rw [applyEmotionalDecay_guard g hguard]
    exact ⟨hg, hb⟩
  · rw [applyEmotionalDecay_pass g hguard]
    constructor
    · intro e he
      obtain ⟨e0, he0, rfl⟩ := List.mem_map.mp he
      obtain ⟨m0, hm0, hr⟩ := hg e0 he0
      exact ⟨decayMetadata now m0, by simp [decayEntity, hm0],
        decayMetadata_range now m0 hr (hb e0 he0 m0 hm0)⟩
    · intro e he m hm
      obtain ⟨e0, he0, rfl⟩ := List.mem_map.mp he
      obtain ⟨m0, hm0, -⟩ := hg e0 he0
      rw [decayEntity_lastUpdated now e0 m0 hm0] at hm
      cases hm
      rw [decayMetadata_lastUpdated_self]

theorem saveGraph_range (check now : ℝ) (g : Graph)
    (hg : GraphInRange g) (hb : GraphUpdatedBefore now g) :
    GraphInRange (saveGraph check now g).graph := by
  rw [saveGraph_def]
  by_cases hguard : (now - check) / (1000 * 60 * 60) < 1
  · simp only [hguard, if_true]
    exact fun e he => hg e he
  · simp only [hguard, if_false]
    intro e he
    obtain ⟨e0, he0, rfl⟩ := List.mem_map.mp he
    obtain ⟨m0, hm0, hr⟩ := hg e0 he0
    exact ⟨decayMetadata now m0, by simp [decayEntity, hm0],
      decayMetadata_range now m0 hr (hb e0 he0 m0 hm0)⟩

theorem createDefaultEmotionalMetadata_range (now : ℝ) (e : Entity) :
    MetadataInRange (createDefaultEmotionalMetadata now e)
      ∧ (createDefaultEmotionalMetadata now e).lastUpdated = now := by
  unfold MetadataInRange createDefaultEmotionalMetadata
  by_cases h1 : isUserPreference e <;> by_cases h2 : isRelationshipEntity e <;>
    simp [h1, h2] <;> norm_num

theorem updateFirst_mem {p : α → Bool} {f : α → α} :
    ∀ (l : List α), ∀ x ∈ updateFirst p f l, x ∈ l ∨ ∃ a ∈ l, x = f a := by
  intro l
  induction l with
  | nil => intro x hx; simp [updateFirst] at hx
  | cons a as ih =>
      intro x hx
      rw [updateFirst] at hx
      split at hx
      · rcases List.mem_cons.mp hx with h | h
        · exact Or.inr ⟨a, List.mem_cons_self a as, h⟩
        · exact Or.inl (List.mem_cons.mpr (Or.inr h))
      · rcases List.mem_cons.mp hx with h | h
        · exact Or.inl (List.mem_cons.mpr (Or.inl h))
        · rcases ih x h with h2 | ⟨a2, ha2, hfa⟩
          · exact Or.inl (List.mem_cons.mpr (Or.inr h2))
          · exact Or.inr ⟨a2, List.mem_cons.mpr (Or.inr ha2), hfa⟩

theorem addObservationOne_range (now : ℝ) (g : Graph) (o : ObservationRequest)
    (g' : Graph) (r : ObservationResult)
    (h : addObservationOne now g o = .ok (g', r))
    (hg : GraphInRange g) (hb : GraphUpdatedBefore now g) :
    GraphInRange g' ∧ GraphUpdatedBefore now g' := by
  cases hfind : g.entities.find? (fun e => e.name == o.entityName) with
  | none => rw [addObservationOne, hfind] at h; exact absurd h (by simp)
  | some entity =>
      rw [addObservationOne, hfind] at h
      simp only [Except.ok.injEq, Prod.mk.injEq] at h
      obtain ⟨h1, -⟩ := h
      subst h1
      constructor
      · intro e he
        rcases updateFirst_mem _ e he with hmem | ⟨a, ha, hfa⟩
        · exact hg e hmem
        · subst hfa
          obtain ⟨m, hm, hm0, hm1, hm2, hm3, hm4⟩ := hg a ha
          by_cases hlen :
              (List.filter (fun content => !entity.observations.contains content) o.contents).length > 0
          · refine ⟨{ m with
                      lastUpdated := now
                      lastAccessed := some now
                      trustLevel := min 1.0 (m.trustLevel + 0.01) }, ?_, ?_, ?_, hm2, hm3, hm4⟩
            · simp only [hm, hlen, ite_true]
            · exact le_min (by norm_num) (by linarith)
            · exact le_trans (min_le_left _ _) (by norm_num)
          · refine ⟨{ m with
                      lastUpdated := now
                      lastAccessed := some now }, ?_, hm0, hm1, hm2, hm3, hm4⟩
            simp only [hm, hlen, ite_false]
      · intro e he m hm
        rcases updateFirst_mem _ e he with hmem | ⟨a, ha, hfa⟩
        · exact hb e hmem m hm
        · subst hfa
          obtain ⟨m0, hm0, -⟩ := hg a ha
          simp only [hm0] at hm
          cases hm
          rfl



theorem addObservationsAll_range (now : ℝ) :
    ∀ (os : List ObservationRequest) (g g' : Graph) (rs : List ObservationResult),
      addObservationsAll now g os = .ok (g', rs) →
      GraphInRange g → GraphUpdatedBefore now g →
      GraphInRange g' ∧ GraphUpdatedBefore now g' := by
  intro os
  induction os with
  | nil =>
      intro g g' rs h hg hb
      simp only [addObservationsAll, Except.ok.injEq, Prod.mk.injEq] at h
      obtain ⟨h1, -⟩ := h
      subst h1
      exact ⟨hg, hb⟩
  | cons o os ih =>
      intro g g' rs h hg hb
      rw [addObservationsAll] at h
      split at h
      next err heq => exact absurd h (by simp)
      next pg pr heq =>
        split at h
        next err2 heq2 => exact absurd h (by simp)
        next pg2 prs2 heq2 =>
          simp only [Except.ok.injEq, Prod.mk.injEq] at h
          obtain ⟨h1, -⟩ := h
          subst h1
          obtain ⟨hg1, hb1⟩ := addObservationOne_range now g o pg pr heq hg hb
          exact ih pg pg2 prs2 heq2 hg1 hb1

theorem addObservations_outcome_range (check now : ℝ) (store : List Record)
    (os : List ObservationRequest) (out : SaveOutcome) (results : List ObservationResult)
    (h : addObservations check now store os = .ok (out, results))
    (hg : GraphInRange (loadGraph now store))
    (hb : GraphUpdatedBefore now (loadGraph now store)) :
    GraphInRange out.graph := by
  simp only [addObservations] at h
  split at h
  next err heq => exact absurd h (by simp)
  next pg prs heq =>
    simp only [Except.ok.injEq, Prod.mk.injEq] at h
    obtain ⟨h1, -⟩ := h
    subst h1
    obtain ⟨hg1, hb1⟩ :=
      addObservationsAll_range now os (loadGraph now store) pg prs heq hg hb
    exact saveGraph_range check now pg hg1 hb1

theorem createEntities_outcome_range (check now : ℝ) (store : List Record)
    (batch : List Entity)
    (hg : GraphInRange (loadGraph now store))
    (hb : GraphUpdatedBefore now (loadGraph now store))
    (hbatch : ∀ e ∈ batch, ∀ m, e.emotionalMetadata = some m →
        MetadataInRange m ∧ m.lastUpdated ≤ now) :
    GraphInRange (createEntities check now store batch).1.graph := by
  simp only [createEntities]
  apply saveGraph_range
  · intro e he
    simp only [List.mem_append] at he
    rcases he with he | he
    · exact hg e he
    · obtain ⟨c, hc, rfl⟩ := List.mem_map.mp he
      cases hcm : c.emotionalMetadata with
      | some m =>
          exact ⟨m, by simp [hcm], (hbatch c (List.mem_of_mem_filter hc) m hcm).1⟩
      | none =>
          exact ⟨_, by simp [hcm], (createDefaultEmotionalMetadata_range now c).1⟩
  · intro e he m hm
    simp only [List.mem_append] at he
    rcases he with he | he
    · exact hb e he m hm
    · obtain ⟨c, hc, rfl⟩ := List.mem_map.mp he
      cases hcm : c.emotionalMetadata with
      | some m0 =>
          simp only [hcm, Option.getD_some, Option.some.injEq] at hm
          subst hm
          exact (hbatch c (List.mem_of_mem_filter hc) m0 hcm).2
      | none =>
          simp only [hcm, Option.getD_none, Option.some.injEq] at hm
          subst hm
          rw [(createDefaultEmotionalMetadata_range now c).2]


/-- C9: every entity carries non-null emotional metadata before being
persisted (the loader defaults missing metadata, and defaults are in
range), and `trust`/`resonance` stay in [0, 1] with resonance strictly
positive — floored at 0.1 by the time-based decay rule — as an invariant
preserved by the decay engine, by `saveGraph`, by `createEntities` (when
caller-supplied metadata is itself in range) and by `addObservations`. -/
theorem metadata_invariants_preserved :
    (∀ now : ℝ, ∀ store : List Record, ∀ e ∈ (loadGraph now store).entities,
        e.emotionalMetadata.isSome)
    ∧ (∀ now : ℝ, ∀ e : Entity, MetadataInRange (createDefaultEmotionalMetadata now e))
    ∧ (∀ now : ℝ, ∀ m : EmotionalMetadata, MetadataInRange m → m.lastUpdated ≤ now →
        MetadataInRange (decayMetadata now m))
    ∧ (∀ now : ℝ, ∀ m : EmotionalMetadata, m.importancePattern = "time-based" →
        0.1 ≤ (decayMetadata now m).emotionalResonance)
    ∧ (∀ check now : ℝ, ∀ g : Graph, GraphInRange g → GraphUpdatedBefore now g →
        GraphInRange (saveGraph check now g).graph)
    ∧ (∀ check now : ℝ, ∀ store : List Record, ∀ batch : List Entity,
        GraphInRange (loadGraph now store) → GraphUpdatedBefore now (loadGraph now store) →
        (∀ e ∈ batch, ∀ m, e.emotionalMetadata = some m →
            MetadataInRange m ∧ m.lastUpdated ≤ now) →
        GraphInRange (createEntities check now store batch).1.graph)
    ∧ (∀ check now : ℝ, ∀ store : List Record, ∀ os : List ObservationRequest,
        ∀ out results, addObservations check now store os = .ok (out, results) →
        GraphInRange (loadGraph now store) → GraphUpdatedBefore now (loadGraph now store) →
        GraphInRange out.graph) := by
  refine ⟨loadGraph_metadata_isSome,
    fun now e => (createDefaultEmotionalMetadata_range now e).1,
    decayMetadata_range,
    ?_,
    saveGraph_range,
    createEntities_outcome_range,
    fun check now store os out results h hg hb =>
      addObservations_outcome_range check now store os out results h hg hb⟩
  intro now m htb
  simp only [decayMetadata, htb, reduceIte]
  exact le_max_left _ _

/-- C9 witness: the decay-preservation conjunct applied to concrete in-range
metadata one hour in the past. -/
theorem metadata_invariants_preserved_witness :
    MetadataInRange (decayMetadata 3600000 (mkMeta "preference" 0.5 0.5 0)) :=
  metadata_invariants_preserved.2.2.1 3600000 (mkMeta "preference" 0.5 0.5 0)
    ⟨by norm_num [mkMeta], by norm_num [mkMeta], by norm_num [mkMeta], by norm_num [mkMeta],
      fun d hd => by simp [mkMeta] at hd⟩
    (by norm_num [mkMeta])



theorem entityScore_eq (query : String) (e : Entity) (m : EmotionalMetadata)
    (hm : e.emotionalMetadata = some m) :
    entityScore query e
      = (if containsStr e.name.toLower query.toLower then 10 else 0)
        + (if containsStr e.entityType.toLower query.toLower then 5 else 0)
        + (if e.observations.any (fun o => containsStr o.toLower query.toLower) then 3 else 0)
        + m.emotionalResonance * 2 + m.trustLevel * 2
        + (if m.isUserPreference then 5 else 0)
        + (if m.accessibilityFlag then 3 else 0) := by
  simp only [entityScore, hm]
  ring

theorem entityScore_nonneg (query : String) (e : Entity)
    (h : ∀ m, e.emotionalMetadata = some m → 0 ≤ m.trustLevel ∧ 0 ≤ m.emotionalResonance) :
    0 ≤ entityScore query e := by
  cases hm : e.emotionalMetadata with
  | none =>
      simp only [entityScore, hm]
      split_ifs <;> norm_num
  | some m =>
      obtain ⟨h1, h2⟩ := h m hm
      simp only [entityScore, hm]
      split_ifs <;> nlinarith

theorem searchLe_trans (query : String) : ∀ (a b c : Entity),
    (fun a b => decide (entityScore query b ≤ entityScore query a)) a b →
    (fun a b => decide (entityScore query b ≤ entityScore query a)) b c →
    (fun a b => decide (entityScore query b ≤ entityScore query a)) a c := by
  intro a b c hab hbc
  simp only [decide_eq_true_eq] at *
  exact le_trans hbc hab

theorem searchLe_total (query : String) : ∀ (a b : Entity),
    ((fun a b => decide (entityScore query b ≤ entityScore query a)) a b
      || (fun a b => decide (entityScore query b ≤ entityScore query a)) b a) = true := by
  intro a b
  simp only [Bool.or_eq_true, decide_eq_true_eq]
  exact le_total _ _

theorem searchNodes_entities_eq (query : String) (graph : Graph) :
    (searchNodes query graph).entities
      = List.mergeSort (graph.entities.filter (fun e => decide (0 < entityScore query e)))
          (fun a b => decide (entityScore query b ≤ entityScore query a)) := by
  simp only [searchNodes]
  rw [List.filter_map]
  have hcomp :
      ((fun item : Entity × ℝ => decide (0 < item.2))
          ∘ (fun entity => (entity, entityScore query entity)))
        = fun e : Entity => decide (0 < entityScore query e) := rfl
  rw [hcomp]
  have hms := @List.map_mergeSort (Entity × ℝ) Entity
    (fun a b => decide (b.2 ≤ a.2))
    (fun a b => decide (entityScore query b ≤ entityScore query a))
    Prod.fst
    ((graph.entities.filter (fun e => decide (0 < entityScore query e))).map
      (fun entity => (entity, entityScore query entity)))
    ?_
  · rw [hms, List.map_map]
    have : (Prod.fst ∘ fun entity : Entity => (entity, entityScore query entity)) = id := rfl
    rw [this, List.map_id]
  · intro a ha b hb
    obtain ⟨ea, -, rfl⟩ := List.mem_map.mp ha
    obtain ⟨eb, -, rfl⟩ := List.mem_map.mp hb
    rfl



theorem search_relations_filter (query : String) (graph : Graph) :
    (searchNodes query graph).relations
      = graph.relations.filter (fun r =>
          ((searchNodes query graph).entities.map (fun e => e.name)).contains r.«from»
            && ((searchNodes query graph).entities.map (fun e => e.name)).contains r.«to») := rfl

/-- C2: with all stored trust/resonance values nonnegative (the documented
invariant), search scores each entity as 10 for a case-insensitive name
match, 5 for a type match, 3 when any observation matches, plus
resonance*2 + trust*2 and flat boosts of 5 for `isUserPreference` and 3 for
`accessibilityFlag`; zero-score entities are excluded and the rest returned
in descending score order with the original graph order as the tie-break
(stability); the returned relations are exactly those whose two endpoints
both survive the filter. -/
theorem search_scoring_contract (query : String) (graph : Graph)
    (hmeta : ∀ e ∈ graph.entities, ∀ m, e.emotionalMetadata = some m →
        0 ≤ m.trustLevel ∧ 0 ≤ m.emotionalResonance) :
    (∀ e ∈ graph.entities, ∀ m, e.emotionalMetadata = some m →
        entityScore query e
          = (if containsStr e.name.toLower query.toLower then 10 else 0)
            + (if containsStr e.entityType.toLower query.toLower then 5 else 0)
            + (if e.observations.any (fun o => containsStr o.toLower query.toLower) then 3
               else 0)
            + m.emotionalResonance * 2 + m.trustLevel * 2
            + (if m.isUserPreference then 5 else 0)
            + (if m.accessibilityFlag then 3 else 0))
    ∧ List.Perm (searchNodes query graph).entities
        (graph.entities.filter (fun e => decide (¬ entityScore query e = 0)))
    ∧ List.Pairwise (fun a b => entityScore query b ≤ entityScore query a)
        (searchNodes query graph).entities
    ∧ (∀ a b : Entity, entityScore query b ≤ entityScore query a →
        List.Sublist [a, b]
          (graph.entities.filter (fun e => decide (0 < entityScore query e))) →
        List.Sublist [a, b] (searchNodes query graph).entities)
    ∧ (∀ r : Relation, r ∈ (searchNodes query graph).relations ↔
        (r ∈ graph.relations
          ∧ r.«from» ∈ (searchNodes query graph).entities.map (fun e => e.name)
          ∧ r.«to» ∈ (searchNodes query graph).entities.map (fun e => e.name))) := by
  refine ⟨fun e he m hm => entityScore_eq query e m hm, ?_, ?_, ?_, ?_⟩
  · rw [searchNodes_entities_eq]
    have hfe : graph.entities.filter (fun e => decide (0 < entityScore query e))
        = graph.entities.filter (fun e => decide (¬ entityScore query e = 0)) :=
      List.filter_congr (fun e he => by
        simp only [decide_eq_decide]
        have h0 := entityScore_nonneg query e (hmeta e he)
        constructor
        · intro h
          exact ne_of_gt h
        · intro h
          exact lt_of_le_of_ne h0 (Ne.symm h))
    rw [← hfe]
    exact List.mergeSort_perm _ _
  · rw [searchNodes_entities_eq]
    have hs := List.sorted_mergeSort (searchLe_trans query) (searchLe_total query)
      (graph.entities.filter (fun e => decide (0 < entityScore query e)))
    exact hs.imp (fun h => decide_eq_true_eq.mp h)
  · intro a b hab hsub
    rw [searchNodes_entities_eq]
    exact List.pair_sublist_mergeSort (searchLe_trans query) (searchLe_total query)
      (by simpa using hab) hsub
  · intro r
    rw [search_relations_filter]
    simp only [List.mem_filter, Bool.and_eq_true, List.contains, List.elem_eq_mem,
      decide_eq_true_eq]

/-- C10: an entity carrying emotional metadata with nonnegative scores and
positive resonance or positive trust is returned by search for every query,
even one matching none of its name, type or observations: the metadata
boosts are added before the positive-score filter, so a pure text mismatch
never excludes it. -/
theorem search_returns_positive_metadata_entities (query : String) (graph : Graph)
    (e : Entity) (m : EmotionalMetadata)
    (he : e ∈ graph.entities) (hm : e.emotionalMetadata = some m)
    (ht : 0 ≤ m.trustLevel) (hr : 0 ≤ m.emotionalResonance)
    (hpos : 0 < m.emotionalResonance ∨ 0 < m.trustLevel) :
    e ∈ (searchNodes query graph).entities := by
  rw [searchNodes_entities_eq, List.mem_mergeSort, List.mem_filter]
  refine ⟨he, ?_⟩
  simp only [decide_eq_true_eq]
  simp only [entityScore, hm]
  rcases hpos with hp | hp <;> split_ifs <;> nlinarith


/-- C2 witness: the contract applied to a concrete one-entity graph and the
query "zzz" that matches nothing, with the nonnegativity hypothesis
discharged on the concrete metadata. -/
theorem search_scoring_contract_witness :
    List.Perm
      (searchNodes "zzz"
        ⟨[mkEntity "A" "self-managed" 0.5 0.5 0], [], defaultGraphMetadata 0⟩).entities
      ((⟨[mkEntity "A" "self-managed" 0.5 0.5 0], [], defaultGraphMetadata 0⟩ :
          Graph).entities.filter
        (fun e => decide (¬ entityScore "zzz" e = 0))) :=
  (search_scoring_contract "zzz"
      ⟨[mkEntity "A" "self-managed" 0.5 0.5 0], [], defaultGraphMetadata 0⟩
      (by
        intro e he m hm
        simp only [List.mem_singleton] at he
        subst he
        simp only [mkEntity, Option.some.injEq] at hm
        subst hm
        constructor <;> norm_num [mkMeta])).2.1

/-- C10 witness: the concrete entity above is returned for the
nothing-matching query "zzz" because its resonance boost alone is
positive. -/
theorem search_returns_positive_metadata_entities_witness :
    mkEntity "A" "self-managed" 0.5 0.5 0
      ∈ (searchNodes "zzz"
          ⟨[mkEntity "A" "self-managed" 0.5 0.5 0], [], defaultGraphMetadata 0⟩).entities :=
  search_returns_positive_metadata_entities "zzz"
    ⟨[mkEntity "A" "self-managed" 0.5 0.5 0], [], defaultGraphMetadata 0⟩
    (mkEntity "A" "self-managed" 0.5 0.5 0) (mkMeta "self-managed" 0.5 0.5 0)
    (by simp) (by simp [mkEntity]) (by norm_num [mkMeta]) (by norm_num [mkMeta])
    (Or.inl (by norm_num [mkMeta]))

end

end AIBrain
